import Mathlib

/-!
# Graceful shutdown sequencer of `main.go`

A shallow embedding of `func main` (main.go:24-72) as a labelled transition
system.  The goroutines of the program (main itself, the logging goroutine of
lines 31-35, the cleanup goroutine of lines 50-55 and the joining goroutine of
lines 58-61) each own a program counter in the state; the environment (the
operating system delivering signals, `cmd.RootCommand().ExecuteContext`
returning, `observability.WaitForCleanup` returning, and the passage of time)
is represented by events.  An execution is a list of events that `run`
accepts from `start`.

Time is a discrete clock in nanoseconds with the usual discrete-event reading:
a goroutine step takes no time, and the clock advances only while every
goroutine is blocked, and never across a pending timer.  Events of the
environment may fall on the same instant in any order.  Durations measured on
this clock are those of a scheduler that adds no latency.

The library calls are modelled after their documentation: the context of
`signal.NotifyContext` is cancelled when one of the listed signals arrives or
when its stop function is called, whichever happens first; a signal outside
the list is not relayed, and what else the runtime does with it is not part of
the model; `logrus` `Fatal` writes the record and calls `os.Exit(1)`;
`context.WithTimeout` closes `Done` at the deadline or when its cancel function
is called.
-/

namespace Auth

/-! ## Library constants used by main.go -/

/-- Go's `syscall.Signal` is an integer type; a signal is its number. -/
abbrev Signal := Nat

/-- The value of `syscall.SIGHUP` on Linux. -/
def SIGHUP : Signal := 1

/-- The value of `syscall.SIGINT` on Linux. -/
def SIGINT : Signal := 2

/-- The value of `syscall.SIGTERM` on Linux. -/
def SIGTERM : Signal := 15

/-- The signals passed to `signal.NotifyContext` at main.go:28, in source order. -/
def notifySignals : List Signal := [SIGTERM, SIGHUP, SIGINT]

/-- Go's `time.Nanosecond`: durations are counted in nanoseconds. -/
def Nanosecond : Nat := 1

/-- Go's `time.Microsecond`. -/
def Microsecond : Nat := 1000 * Nanosecond

/-- Go's `time.Millisecond`. -/
def Millisecond : Nat := 1000 * Microsecond

/-- Go's `time.Second`. -/
def Second : Nat := 1000 * Millisecond

/-- Go's `time.Minute`, the timeout handed to `context.WithTimeout` at main.go:44. -/
def Minute : Nat := 60 * Second

/-- The message logged at main.go:34. -/
def shutdownNotice : String := "received graceful shutdown signal"

/-! ## Contexts -/

/-- Who cancelled a context first: a relayed signal, or the stop function
returned by `signal.NotifyContext` (`execCancel`). -/
inductive Cause where
  | signal (sig : Signal)
  | stop
  deriving DecidableEq, Repr

/-- The cancellation state of `execCtx`: whether its `Done` channel is closed,
and what closed it. -/
structure CancelCtx where
  done : Bool
  cause : Option Cause
  deriving DecidableEq, Repr

/-- A context fresh from `context.Background()`: not cancelled. -/
def CancelCtx.background : CancelCtx := { done := false, cause := none }

/-- Go's `cancelCtx.cancel`: the first call closes `Done` and records the
cause; a call on an already cancelled context returns without effect. -/
def CancelCtx.cancel (c : CancelCtx) (why : Cause) : CancelCtx :=
  if c.done then c else { done := true, cause := some why }

/-- The state of `shutdownCtx` (main.go:44): its deadline on the clock, and
whether `shutdownCancel` has been called. -/
structure TimeoutCtx where
  deadline : Nat
  cancelled : Bool
  deriving DecidableEq, Repr

/-! ## Program counters -/

/-- Where main is: blocked in `ExecuteContext` (line 40), gone through
`Fatal` (line 41), blocked in the `select` (line 63), or returned. -/
inductive MainPc where
  | executing
  | failed
  | selecting
  | returned
  deriving DecidableEq, Repr

/-- The goroutine of lines 31-35: blocked on `<-execCtx.Done()`, or past the
log call of line 34. -/
inductive LoggerPc where
  | waiting
  | logged
  deriving DecidableEq, Repr

/-- The goroutine of lines 50-55: not created yet, created but not yet
scheduled, inside `observability.WaitForCleanup`, or finished (its deferred
`wg.Done()` has run). -/
inductive CleanupPc where
  | notSpawned
  | spawned
  | waiting
  | finished
  deriving DecidableEq, Repr

/-- The goroutine of lines 58-61: not created yet, blocked in `wg.Wait()`, or
finished (its deferred `close(cleanupDone)` has run). -/
inductive WaiterPc where
  | notSpawned
  | blocked
  | closed
  deriving DecidableEq, Repr

/-- The case of the `select` at main.go:63 that was taken. -/
inductive Branch where
  | timedOut
  | cleanupFinished
  deriving DecidableEq, Repr

/-- A record written through logrus by main.go itself. -/
inductive LogEntry where
  | info (msg : String)
  | fatal (err : String)
  deriving DecidableEq, Repr

/-! ## State and events -/

/-- The state of the process.  `execCancels`, `cancelledAt`, `received`,
`workload`, `cleanupPhaseAt`, `joinedAt` and `selected` are history variables:
no step reads them. -/
structure State where
  /-- the clock -/
  now : Nat
  /-- `execCtx` of main.go:28 -/
  execCtx : CancelCtx
  /-- how many times `execCtx` went from live to cancelled -/
  execCancels : Nat
  /-- the clock when `execCtx` was cancelled -/
  cancelledAt : Option Nat
  /-- every signal delivered to the process so far, oldest first -/
  received : List Signal
  /-- the goroutine of lines 31-35 -/
  logger : LoggerPc
  /-- main -/
  main : MainPc
  /-- what `ExecuteContext` returned, once it has -/
  workload : Option (Option String)
  /-- `shutdownCtx` of main.go:44, once created -/
  shutdownCtx : Option TimeoutCtx
  /-- the counter of the `sync.WaitGroup` of main.go:47 -/
  wg : Nat
  /-- the goroutine of lines 50-55 -/
  cleanup : CleanupPc
  /-- the goroutine of lines 58-61; `cleanupDone` is closed when it is `closed` -/
  waiter : WaiterPc
  /-- the records written by main.go, oldest first -/
  log : List LogEntry
  /-- the exit code, once the process has exited -/
  exitCode : Option Nat
  /-- the clock when main reached line 44 -/
  cleanupPhaseAt : Option Nat
  /-- the clock when the wait group counter reached zero -/
  joinedAt : Option Nat
  /-- the clock and the case at which the `select` of line 63 returned -/
  selected : Option (Nat × Branch)
  deriving DecidableEq, Repr

/-- What can happen next. -/
inductive Event where
  /-- the operating system delivers a signal to the process -/
  | signal (sig : Signal)
  /-- the goroutine of lines 31-35 gets past `<-execCtx.Done()` and logs -/
  | notice
  /-- `ExecuteContext` returns `err`; main runs on to `Fatal` or to the `select` -/
  | workloadReturn (err : Option String)
  /-- the goroutine of lines 50-55 is scheduled and calls `WaitForCleanup` -/
  | cleanupStart
  /-- `WaitForCleanup` returns and the deferred `wg.Done()` runs -/
  | cleanupReturn
  /-- `wg.Wait()` returns and the deferred `close(cleanupDone)` runs -/
  | waiterWake
  /-- main takes `case <-shutdownCtx.Done()` and returns -/
  | selectTimeout
  /-- main takes `case <-cleanupDone` and returns -/
  | selectDone
  /-- the runtime ends the process after main has returned -/
  | procExit
  /-- `d` nanoseconds pass -/
  | advance (d : Nat)
  deriving DecidableEq, Repr

/-- The process right after lines 26-35: `execCtx` is live, the logging
goroutine is blocked on it, and main is about to block in `ExecuteContext`. -/
def start : State :=
  { now := 0
    execCtx := CancelCtx.background
    execCancels := 0
    cancelledAt := none
    received := []
    logger := .waiting
    main := .executing
    workload := none
    shutdownCtx := none
    wg := 0
    cleanup := .notSpawned
    waiter := .notSpawned
    log := []
    exitCode := none
    cleanupPhaseAt := none
    joinedAt := none
    selected := none }

/-- Cancel `execCtx` for the reason `why` (a relayed signal, or `execCancel`),
keeping count of effective cancellations. -/
def cancelExec (s : State) (why : Cause) : State :=
  if s.execCtx.done then s
  else { s with execCtx := s.execCtx.cancel why
                execCancels := s.execCancels + 1
                cancelledAt := some s.now }

/-- Whether `shutdownCtx.Done()` is closed: the context exists and has been
cancelled or has reached its deadline. -/
def shutdownDone (s : State) : Bool :=
  match s.shutdownCtx with
  | none => false
  | some c => c.cancelled || decide (c.deadline ≤ s.now)

/-- Some goroutine of the process can take a step without waiting for the
environment or the clock. -/
def runnable (s : State) : Bool :=
  (decide (s.logger = .waiting) && s.execCtx.done)
    || decide (s.cleanup = .spawned)
    || (decide (s.waiter = .blocked) && decide (s.wg = 0))
    || (decide (s.main = .selecting) && (shutdownDone s || decide (s.waiter = .closed)))
    || decide (s.main = .returned)

/-- The clock may advance by `d` without jumping over the deadline of a live
`shutdownCtx`. -/
def timerAllows (s : State) (d : Nat) : Bool :=
  match s.shutdownCtx with
  | none => true
  | some c => c.cancelled || decide (s.now + d ≤ c.deadline)

/-- Main leaves the `select` through case `b` and returns: the deferred calls
run in reverse order of registration, `shutdownCancel()` (line 45) and then
`execCancel()` (line 29). -/
def mainReturn (s : State) (b : Branch) : State :=
  cancelExec
    { s with main := .returned
             selected := some (s.now, b)
             shutdownCtx := s.shutdownCtx.map fun c => { c with cancelled := true } }
    .stop

/-- One step of the process; `none` when the event cannot happen in `s`.
Nothing happens in a process that has exited. -/
def step (s : State) (e : Event) : Option State :=
  if s.exitCode.isSome then none
  else
    match e with
    | .signal sig =>
      -- signal.NotifyContext relays only the listed signals (line 28); the others
      -- are recorded as delivered and change nothing else
      let s1 := { s with received := s.received ++ [sig] }
      if sig ∈ notifySignals then some (cancelExec s1 (.signal sig)) else some s1
    | .notice =>
      -- lines 33-34
      if s.logger = .waiting ∧ s.execCtx.done = true then
        some { s with logger := .logged, log := s.log ++ [.info shutdownNotice] }
      else none
    | .workloadReturn err =>
      if s.main = .executing then
        match err with
        | some e =>
          -- lines 40-41: logrus Fatal writes the record and calls os.Exit(1)
          some { s with workload := some (some e)
                        main := .failed
                        log := s.log ++ [.fatal e]
                        exitCode := some 1 }
        | none =>
          -- lines 44-61, up to the select
          some { s with workload := some none
                        main := .selecting
                        shutdownCtx := some { deadline := s.now + Minute, cancelled := false }
                        cleanupPhaseAt := some s.now
                        wg := s.wg + 1
                        cleanup := .spawned
                        waiter := .blocked }
      else none
    | .cleanupStart =>
      -- line 54 is entered
      if s.cleanup = .spawned then some { s with cleanup := .waiting } else none
    | .cleanupReturn =>
      -- line 54 returns, then line 51
      if s.cleanup = .waiting then
        some { s with cleanup := .finished
                      wg := s.wg - 1
                      joinedAt := if s.wg - 1 = 0 then some s.now else s.joinedAt }
      else none
    | .waiterWake =>
      -- line 60 returns, then line 59
      if s.waiter = .blocked ∧ s.wg = 0 then some { s with waiter := .closed } else none
    | .selectTimeout =>
      -- lines 64-66
      if s.main = .selecting ∧ shutdownDone s = true then some (mainReturn s .timedOut)
      else none
    | .selectDone =>
      -- lines 68-70
      if s.main = .selecting ∧ s.waiter = .closed then some (mainReturn s .cleanupFinished)
      else none
    | .procExit =>
      if s.main = .returned then some { s with exitCode := some 0 } else none
    | .advance d =>
      if runnable s = false ∧ timerAllows s d = true then some { s with now := s.now + d }
      else none

/-- Run a list of events from `s`; `none` when one of them cannot happen. -/
def run (s : State) : List Event → Option State
  | [] => some s
  | e :: es => (step s e).bind fun s1 => run s1 es

/-- How many shutdown notices (line 34) the log holds. -/
def noticeCount (s : State) : Nat := s.log.count (.info shutdownNotice)

/-- How many fatal records (line 41) the log holds. -/
def fatalCount (s : State) : Nat :=
  (s.log.filter fun l => match l with | .fatal _ => true | .info _ => false).length

/-- The signals of `l` that are among those of line 28, in order. -/
def watchedOf (l : List Signal) : List Signal := l.filter fun g => decide (g ∈ notifySignals)

/-- How many of the signals delivered so far are among those of line 28. -/
def watchedCount (s : State) : Nat := (watchedOf s.received).length

/-- The first of the signals delivered so far that is among those of line 28. -/
def firstWatched (s : State) : Option Signal := (watchedOf s.received).head?

/-- The shape of the cleanup phase (main.go:44-71) once main has entered it;
`c` tells whether `shutdownCancel` has run. -/
def Phase (s : State) (c : Bool) : Prop :=
  s.workload = some none ∧
  s.cleanupPhaseAt ≠ none ∧
  (∀ t0, s.cleanupPhaseAt = some t0 →
    s.shutdownCtx = some ⟨t0 + Minute, c⟩ ∧ t0 ≤ s.now ∧ s.now ≤ t0 + Minute) ∧
  s.cleanup ≠ .notSpawned ∧
  (s.cleanup ≠ .finished → s.wg = 1 ∧ s.joinedAt = none ∧ s.waiter = .blocked) ∧
  (s.cleanup = .finished → s.wg = 0 ∧ s.joinedAt = some s.now ∧ s.waiter ≠ .notSpawned)

/-- The lifecycle invariant, by the position of main. -/
def LifeInv (s : State) : Prop :=
  match s.main with
  | .executing =>
    s.workload = none ∧ s.shutdownCtx = none ∧ s.cleanupPhaseAt = none ∧ s.wg = 0 ∧
    s.cleanup = .notSpawned ∧ s.waiter = .notSpawned ∧ s.exitCode = none ∧
    s.joinedAt = none ∧ s.selected = none
  | .failed =>
    (∃ e, s.workload = some (some e)) ∧ s.shutdownCtx = none ∧ s.cleanupPhaseAt = none ∧
    s.wg = 0 ∧ s.cleanup = .notSpawned ∧ s.waiter = .notSpawned ∧ s.exitCode = some 1 ∧
    s.joinedAt = none ∧ s.selected = none
  | .selecting =>
    Phase s false ∧ s.exitCode = none ∧ s.selected = none
  | .returned =>
    Phase s true ∧ (s.exitCode = none ∨ s.exitCode = some 0) ∧
    s.selected ≠ none ∧
    ∀ t b, s.selected = some (t, b) → t = s.now ∧
      (b = .timedOut → ∀ t0, s.cleanupPhaseAt = some t0 → s.now = t0 + Minute) ∧
      (b = .cleanupFinished → s.cleanup = .finished)

/-- The invariant of the signal side: `execCtx`, the logging goroutine and
the log. -/
structure ExecInv (s : State) : Prop where
  live : s.execCtx.done = false →
    s.execCtx.cause = none ∧ s.execCancels = 0 ∧ s.cancelledAt = none ∧
    s.logger = .waiting ∧ watchedCount s = 0 ∧ s.main ≠ .returned
  dead : s.execCtx.done = true →
    s.execCancels = 1 ∧ s.execCtx.cause ≠ none ∧ s.cancelledAt ≠ none ∧
    (0 < watchedCount s ∨ s.main = .returned)
  bySignal : ∀ g, s.execCtx.cause = some (.signal g) → firstWatched s = some g
  byStop : s.execCtx.cause = some .stop → s.main = .returned
  notices : noticeCount s = if s.logger = .logged then 1 else 0
  fatals : fatalCount s = if s.main = .failed then 1 else 0
  prompt : ∀ t, s.cancelledAt = some t → t ≤ s.now ∧ (t < s.now → s.logger = .logged)

/-! ## Separating the signal side from the cleanup side -/

/-- The smaller of `T` and `W`, where `T = none` stands for "never". -/
def minDelay (T : Option Nat) (W : Nat) : Nat :=
  match T with
  | none => W
  | some T => min T W

/-- Nanoseconds from the start of the cleanup phase (line 44) to the moment
the wait group was joined; `none` while it has not been joined. -/
def joinDelay (s : State) : Option Nat :=
  s.joinedAt.map fun T => T - s.cleanupPhaseAt.getD 0

/-- Nanoseconds from the start of the cleanup phase (line 44) to the return
of the `select` of line 63; `none` while it has not returned. -/
def selectDelay (s : State) : Option Nat :=
  s.selected.map fun r => r.1 - s.cleanupPhaseAt.getD 0

/-! ## Sample executions -/

/-- SIGTERM arrives, the notice is logged, SIGINT arrives, and the workload
then fails. -/
def failingRun : List Event :=
  [.signal SIGTERM, .notice, .signal SIGINT, .workloadReturn (some "db unreachable")]

/-- Where `failingRun` ends. -/
def afterFailingRun : State :=
  { start with
    execCtx := { done := true, cause := some (.signal SIGTERM) }
    execCancels := 1
    cancelledAt := some 0
    received := [SIGTERM, SIGINT]
    logger := .logged
    main := .failed
    workload := some (some "db unreachable")
    log := [.info shutdownNotice, .fatal "db unreachable"]
    exitCode := some 1 }

/-- The workload ends well after five seconds, and the cleanup never
finishes: main leaves the `select` by the deadline and the process exits. -/
def stuckCleanupRun : List Event :=
  [.advance (5 * Second), .workloadReturn none, .cleanupStart, .advance Minute,
   .selectTimeout, .procExit]

/-- Where `stuckCleanupRun` ends. -/
def afterStuckCleanupRun : State :=
  { start with
    now := 5 * Second + Minute
    execCtx := { done := true, cause := some .stop }
    execCancels := 1
    cancelledAt := some (5 * Second + Minute)
    main := .returned
    workload := some none
    shutdownCtx := some { deadline := 5 * Second + Minute, cancelled := true }
    wg := 1
    cleanup := .waiting
    waiter := .blocked
    exitCode := some 0
    cleanupPhaseAt := some (5 * Second)
    selected := some (5 * Second + Minute, .timedOut) }

/-- SIGTERM arrives and is logged, the workload ends well one second later,
and the cleanup takes three seconds: main leaves the `select` by
`cleanupDone`, and the process exits. -/
def promptCleanupRun : List Event :=
  [.signal SIGTERM, .notice, .advance Second, .workloadReturn none, .cleanupStart,
   .advance (3 * Second), .cleanupReturn, .waiterWake, .selectDone, .procExit]

/-- Where `promptCleanupRun` ends. -/
def afterPromptCleanupRun : State :=
  { start with
    now := 4 * Second
    execCtx := { done := true, cause := some (.signal SIGTERM) }
    execCancels := 1
    cancelledAt := some 0
    received := [SIGTERM]
    logger := .logged
    main := .returned
    workload := some none
    shutdownCtx := some { deadline := Second + Minute, cancelled := true }
    wg := 0
    cleanup := .finished
    waiter := .closed
    log := [.info shutdownNotice]
    exitCode := some 0
    cleanupPhaseAt := some Second
    joinedAt := some (4 * Second)
    selected := some (4 * Second, .cleanupFinished) }

/-- The workload has ended well and `WaitForCleanup` is running. -/
def cleaningRun : List Event := [.workloadReturn none, .cleanupStart]

/-- Where `cleaningRun` ends. -/
def afterCleaningRun : State :=
  { start with
    main := .selecting
    workload := some none
    shutdownCtx := some { deadline := Minute, cancelled := false }
    wg := 1
    cleanup := .waiting
    waiter := .blocked
    cleanupPhaseAt := some 0 }

/-- The process right after SIGTERM has cancelled `execCtx`. -/
def afterSigterm : State :=
  { start with
    execCtx := { done := true, cause := some (.signal SIGTERM) }
    execCancels := 1
    cancelledAt := some 0
    received := [SIGTERM] }

/-- After SIGTERM: SIGHUP arrives, the notice is logged, the workload ends
well, the cleanup finishes at once and main returns, running the deferred
`execCancel`. -/
def laterEvents : List Event :=
  [.signal SIGHUP, .notice, .workloadReturn none, .cleanupStart, .cleanupReturn,
   .waiterWake, .selectDone]

/-- Where `laterEvents` ends from `afterSigterm`. -/
def afterLaterEvents : State :=
  { start with
    execCtx := { done := true, cause := some (.signal SIGTERM) }
    execCancels := 1
    cancelledAt := some 0
    received := [SIGTERM, SIGHUP]
    logger := .logged
    main := .returned
    workload := some none
    shutdownCtx := some { deadline := Minute, cancelled := true }
    wg := 0
    cleanup := .finished
    waiter := .closed
    log := [.info shutdownNotice]
    cleanupPhaseAt := some 0
    joinedAt := some 0
    selected := some (0, .cleanupFinished) }

/-- SIGTERM and SIGINT arrive, and the workload fails before the logging
goroutine has been scheduled. -/
def lostNoticeRun : List Event :=
  [.signal SIGTERM, .signal SIGINT, .workloadReturn (some "db unreachable")]

/-- Where `lostNoticeRun` ends. -/
def afterLostNoticeRun : State :=
  { start with
    execCtx := { done := true, cause := some (.signal SIGTERM) }
    execCancels := 1
    cancelledAt := some 0
    received := [SIGTERM, SIGINT]
    main := .failed
    workload := some (some "db unreachable")
    log := [.fatal "db unreachable"]
    exitCode := some 1 }

/-- SIGTERM, SIGINT and SIGHUP arrive while the workload is running, with the
notice logged after the first of them; two seconds later the workload is
still running. -/
def threeSignalsRun : List Event :=
  [.signal SIGTERM, .notice, .signal SIGINT, .signal SIGHUP, .advance (2 * Second)]

/-- Where `threeSignalsRun` ends. -/
def afterThreeSignalsRun : State :=
  { start with
    now := 2 * Second
    execCtx := { done := true, cause := some (.signal SIGTERM) }
    execCancels := 1
    cancelledAt := some 0
    received := [SIGTERM, SIGINT, SIGHUP]
    logger := .logged
    log := [.info shutdownNotice] }

/-- No signal at all: the workload ends well, the cleanup takes three seconds,
and main returns; the process has not exited yet. -/
def quietRun : List Event :=
  [.workloadReturn none, .cleanupStart, .advance (3 * Second), .cleanupReturn, .waiterWake,
   .selectDone]

/-- Where `quietRun` ends. -/
def afterQuietRun : State :=
  { start with
    now := 3 * Second
    execCtx := { done := true, cause := some .stop }
    execCancels := 1
    cancelledAt := some (3 * Second)
    main := .returned
    workload := some none
    shutdownCtx := some { deadline := Minute, cancelled := true }
    wg := 0
    cleanup := .finished
    waiter := .closed
    cleanupPhaseAt := some 0
    joinedAt := some (3 * Second)
    selected := some (3 * Second, .cleanupFinished) }

/-- SIGTERM arrives, the notice is logged, and the workload then returns an
error. -/
def noticedFailureRun : List Event :=
  [.signal SIGTERM, .notice, .workloadReturn (some "context canceled")]

/-- Where `noticedFailureRun` ends. -/
def afterNoticedFailureRun : State :=
  { start with
    execCtx := { done := true, cause := some (.signal SIGTERM) }
    execCancels := 1
    cancelledAt := some 0
    received := [SIGTERM]
    logger := .logged
    main := .failed
    workload := some (some "context canceled")
    log := [.info shutdownNotice, .fatal "context canceled"]
    exitCode := some 1 }

theorem step_exited {s : State} {e : Event} (h : s.exitCode ≠ none) : step s e = none := by
  unfold step
  cases hx : s.exitCode with
  | none => exact absurd hx h
  | some c => simp

theorem step_signal_iff {s s' : State} {g : Signal} :
    step s (.signal g) = some s' ↔ s.exitCode = none ∧
      s' = if g ∈ notifySignals then
             cancelExec { s with received := s.received ++ [g] } (.signal g)
           else { s with received := s.received ++ [g] } := by
  unfold step
  cases hx : s.exitCode with
  | some c => simp
  | none =>
    by_cases hg : g ∈ notifySignals <;> simp [hg, eq_comm]

theorem step_notice_iff {s s' : State} :
    step s .notice = some s' ↔ s.exitCode = none ∧ s.logger = .waiting ∧ s.execCtx.done = true ∧
      s' = { s with logger := .logged, log := s.log ++ [.info shutdownNotice] } := by
  unfold step
  cases hx : s.exitCode with
  | some c => simp
  | none =>
    by_cases hg : s.logger = .waiting ∧ s.execCtx.done = true
    · simp [hg, eq_comm]
    · simp only [Option.isSome_none, Bool.false_eq_true, ↓reduceIte, hg]
      constructor
      · intro h; cases h
      · intro h; exact absurd ⟨h.2.1, h.2.2.1⟩ hg

theorem step_fail_iff {s s' : State} {e : String} :
    step s (.workloadReturn (some e)) = some s' ↔ s.exitCode = none ∧ s.main = .executing ∧
      s' = { s with workload := some (some e), main := .failed, log := s.log ++ [.fatal e],
                    exitCode := some 1 } := by
  unfold step
  cases hx : s.exitCode with
  | some c => simp
  | none =>
    by_cases hg : s.main = .executing <;> simp [hg, eq_comm]

theorem step_succeed_iff {s s' : State} :
    step s (.workloadReturn none) = some s' ↔ s.exitCode = none ∧ s.main = .executing ∧
      s' = { s with workload := some none, main := .selecting,
                    shutdownCtx := some { deadline := s.now + Minute, cancelled := false },
                    cleanupPhaseAt := some s.now, wg := s.wg + 1, cleanup := .spawned,
                    waiter := .blocked } := by
  unfold step
  cases hx : s.exitCode with
  | some c => simp
  | none =>
    by_cases hg : s.main = .executing <;> simp [hg, eq_comm]

theorem step_cleanupStart_iff {s s' : State} :
    step s .cleanupStart = some s' ↔ s.exitCode = none ∧ s.cleanup = .spawned ∧
      s' = { s with cleanup := .waiting } := by
  unfold step
  cases hx : s.exitCode with
  | some c => simp
  | none =>
    by_cases hg : s.cleanup = .spawned <;> simp [hg, eq_comm]

theorem step_cleanupReturn_iff {s s' : State} :
    step s .cleanupReturn = some s' ↔ s.exitCode = none ∧ s.cleanup = .waiting ∧
      s' = { s with cleanup := .finished, wg := s.wg - 1,
                    joinedAt := if s.wg - 1 = 0 then some s.now else s.joinedAt } := by
  unfold step
  cases hx : s.exitCode with
  | some c => simp
  | none =>
    by_cases hg : s.cleanup = .waiting <;> simp [hg, eq_comm]

theorem step_waiterWake_iff {s s' : State} :
    step s .waiterWake = some s' ↔ s.exitCode = none ∧ s.waiter = .blocked ∧ s.wg = 0 ∧
      s' = { s with waiter := .closed } := by
  unfold step
  cases hx : s.exitCode with
  | some c => simp
  | none =>
    by_cases hg : s.waiter = .blocked ∧ s.wg = 0
    · simp [hg, eq_comm]
    · simp only [Option.isSome_none, Bool.false_eq_true, ↓reduceIte, hg]
      constructor
      · intro h; cases h
      · intro h; exact absurd ⟨h.2.1, h.2.2.1⟩ hg

theorem step_selectTimeout_iff {s s' : State} :
    step s .selectTimeout = some s' ↔ s.exitCode = none ∧ s.main = .selecting ∧
      shutdownDone s = true ∧ s' = mainReturn s .timedOut := by
  unfold step
  cases hx : s.exitCode with
  | some c => simp
  | none =>
    by_cases hg : s.main = .selecting ∧ shutdownDone s = true
    · simp [hg, eq_comm]
    · simp only [Option.isSome_none, Bool.false_eq_true, ↓reduceIte, hg]
      constructor
      · intro h; cases h
      · intro h; exact absurd ⟨h.2.1, h.2.2.1⟩ hg

theorem step_selectDone_iff {s s' : State} :
    step s .selectDone = some s' ↔ s.exitCode = none ∧ s.main = .selecting ∧
      s.waiter = .closed ∧ s' = mainReturn s .cleanupFinished := by
  unfold step
  cases hx : s.exitCode with
  | some c => simp
  | none =>
    by_cases hg : s.main = .selecting ∧ s.waiter = .closed
    · simp [hg, eq_comm]
    · simp only [Option.isSome_none, Bool.false_eq_true, ↓reduceIte, hg]
      constructor
      · intro h; cases h
      · intro h; exact absurd ⟨h.2.1, h.2.2.1⟩ hg

theorem step_procExit_iff {s s' : State} :
    step s .procExit = some s' ↔ s.exitCode = none ∧ s.main = .returned ∧
      s' = { s with exitCode := some 0 } := by
  unfold step
  cases hx : s.exitCode with
  | some c => simp
  | none =>
    by_cases hg : s.main = .returned <;> simp [hg, eq_comm]

theorem step_advance_iff {s s' : State} {d : Nat} :
    step s (.advance d) = some s' ↔ s.exitCode = none ∧ runnable s = false ∧
      timerAllows s d = true ∧ s' = { s with now := s.now + d } := by
  unfold step
  cases hx : s.exitCode with
  | some c => simp
  | none =>
    by_cases hg : runnable s = false ∧ timerAllows s d = true
    · simp [hg, eq_comm]
    · simp only [Option.isSome_none, Bool.false_eq_true, ↓reduceIte, hg]
      constructor
      · intro h; cases h
      · intro h; exact absurd ⟨h.2.1, h.2.2.1⟩ hg

theorem runnable_false_iff {s : State} :
    runnable s = false ↔
      (s.logger = .waiting → s.execCtx.done = false) ∧ s.cleanup ≠ .spawned ∧
      (s.waiter = .blocked → s.wg ≠ 0) ∧
      (s.main = .selecting → shutdownDone s = false ∧ s.waiter ≠ .closed) ∧
      s.main ≠ .returned := by
  unfold runnable
  simp only [Bool.or_eq_false_iff, Bool.and_eq_false_imp, decide_eq_true_eq, decide_eq_false_iff_not,
    ne_eq, and_assoc]

/-! ## The lifecycle invariant -/

theorem lifeInv_start : LifeInv start := by
  simp [LifeInv, start]

theorem lifeInv_cancelExec {s : State} (w : Cause) (h : LifeInv s) : LifeInv (cancelExec s w) := by
  unfold cancelExec; split
  · exact h
  · exact h

theorem lifeInv_signal {s s' : State} {g : Signal} (h : LifeInv s)
    (hs : step s (.signal g) = some s') : LifeInv s' := by
  obtain ⟨_, rfl⟩ := step_signal_iff.mp hs
  split
  · exact lifeInv_cancelExec _ h
  · exact h

theorem lifeInv_notice {s s' : State} (h : LifeInv s)
    (hs : step s .notice = some s') : LifeInv s' := by
  obtain ⟨_, _, _, rfl⟩ := step_notice_iff.mp hs
  exact h

theorem lifeInv_workloadReturn {s s' : State} {err : Option String} (h : LifeInv s)
    (hs : step s (.workloadReturn err) = some s') : LifeInv s' := by
  cases err with
  | some e =>
    obtain ⟨_, hm, rfl⟩ := step_fail_iff.mp hs
    simp [LifeInv, hm] at h ⊢
    simp [h]
  | none =>
    obtain ⟨_, hm, rfl⟩ := step_succeed_iff.mp hs
    simp [LifeInv, hm] at h ⊢
    simp [Phase, h]

theorem lifeInv_cleanupStart {s s' : State} (h : LifeInv s)
    (hs : step s .cleanupStart = some s') : LifeInv s' := by
  obtain ⟨_, hc, rfl⟩ := step_cleanupStart_iff.mp hs
  cases hm : s.main <;> simp [LifeInv, Phase, hm, hc] at h ⊢
  · simp_all
  · aesop

theorem lifeInv_cleanupReturn {s s' : State} (h : LifeInv s)
    (hs : step s .cleanupReturn = some s') : LifeInv s' := by
  obtain ⟨_, hc, rfl⟩ := step_cleanupReturn_iff.mp hs
  cases hm : s.main <;> simp [LifeInv, Phase, hm, hc] at h ⊢
  · simp_all
  · aesop

theorem lifeInv_waiterWake {s s' : State} (h : LifeInv s)
    (hs : step s .waiterWake = some s') : LifeInv s' := by
  obtain ⟨_, hc, hw, rfl⟩ := step_waiterWake_iff.mp hs
  cases hm : s.main <;> simp [LifeInv, Phase, hm, hc, hw] at h ⊢
  · simp_all
  · aesop

theorem shutdownDone_eq {s : State} {c : TimeoutCtx} (h : s.shutdownCtx = some c) :
    shutdownDone s = (c.cancelled || decide (c.deadline ≤ s.now)) := by
  simp [shutdownDone, h]

theorem timerAllows_eq {s : State} {c : TimeoutCtx} {d : Nat} (h : s.shutdownCtx = some c) :
    timerAllows s d = (c.cancelled || decide (s.now + d ≤ c.deadline)) := by
  simp [timerAllows, h]

theorem lifeInv_mainReturn {s : State} {b : Branch} (h : LifeInv s) (hm : s.main = .selecting)
    (hb : b = .timedOut → shutdownDone s = true) (hc : b = .cleanupFinished → s.waiter = .closed) :
    LifeInv (mainReturn s b) := by
  unfold mainReturn
  apply lifeInv_cancelExec
  simp only [LifeInv, hm, Phase] at h
  obtain ⟨⟨h1, h2, h3, h4, h5, h6⟩, h7, h8⟩ := h
  obtain ⟨t0, ht0⟩ := Option.ne_none_iff_exists'.mp h2
  obtain ⟨h31, h32, h33⟩ := h3 t0 ht0
  simp only [LifeInv, Phase]
  refine ⟨⟨h1, h2, ?_, h4, h5, h6⟩, Or.inl h7, by simp, ?_⟩
  · intro t1 ht1
    rw [ht0] at ht1
    cases ht1
    simp [h31, h32, h33]
  · intro t b' hsel
    simp only [Option.some.injEq, Prod.mk.injEq] at hsel
    obtain ⟨rfl, rfl⟩ := hsel
    refine ⟨rfl, ?_, ?_⟩
    · intro hbt t1 ht1
      rw [ht0] at ht1
      cases ht1
      have := hb hbt
      rw [shutdownDone_eq h31] at this
      simp at this
      omega
    · intro hbc
      by_contra hn
      have := (h5 hn).2.2
      rw [hc hbc] at this
      cases this

theorem lifeInv_selectTimeout {s s' : State} (h : LifeInv s)
    (hs : step s .selectTimeout = some s') : LifeInv s' := by
  obtain ⟨_, hm, hd, rfl⟩ := step_selectTimeout_iff.mp hs
  exact lifeInv_mainReturn h hm (fun _ => hd) (fun hb => by cases hb)

theorem lifeInv_selectDone {s s' : State} (h : LifeInv s)
    (hs : step s .selectDone = some s') : LifeInv s' := by
  obtain ⟨_, hm, hd, rfl⟩ := step_selectDone_iff.mp hs
  exact lifeInv_mainReturn h hm (fun hb => by cases hb) (fun _ => hd)

theorem lifeInv_procExit {s s' : State} (h : LifeInv s)
    (hs : step s .procExit = some s') : LifeInv s' := by
  obtain ⟨_, hm, rfl⟩ := step_procExit_iff.mp hs
  simp only [LifeInv, hm, Phase] at h ⊢
  obtain ⟨h1, _, h3, h4⟩ := h
  exact ⟨h1, by simp, h3, h4⟩

theorem lifeInv_advance {s s' : State} {d : Nat} (h : LifeInv s)
    (hs : step s (.advance d) = some s') : LifeInv s' := by
  obtain ⟨hx, hr, ht, rfl⟩ := step_advance_iff.mp hs
  obtain ⟨_, r2, r3, r4, r5⟩ := runnable_false_iff.mp hr
  cases hm : s.main with
  | executing => simpa [LifeInv, hm] using h
  | failed => simpa [LifeInv, hm] using h
  | returned => exact absurd hm r5
  | selecting =>
    simp only [LifeInv, hm, Phase] at h ⊢
    obtain ⟨⟨h1, h2, h3, h4, h5, h6⟩, h7, h8⟩ := h
    have hnf : s.cleanup ≠ .finished := by
      intro hf
      obtain ⟨k1, k2, k3⟩ := h6 hf
      have r4' := (r4 hm).2
      cases hw : s.waiter with
      | notSpawned => exact k3 hw
      | blocked => exact r3 hw k1
      | closed => exact r4' hw
    refine ⟨⟨h1, h2, ?_, h4, h5, fun hf => absurd hf hnf⟩, h7, h8⟩
    intro t0 ht0
    obtain ⟨h31, h32, h33⟩ := h3 t0 ht0
    rw [timerAllows_eq h31] at ht
    simp at ht
    refine ⟨h31, ?_, ?_⟩
    · show t0 ≤ s.now + d
      omega
    · show s.now + d ≤ t0 + Minute
      omega

theorem lifeInv_step {s s' : State} {e : Event} (h : LifeInv s) (hs : step s e = some s') :
    LifeInv s' := by
  cases e with
  | signal g => exact lifeInv_signal h hs
  | notice => exact lifeInv_notice h hs
  | workloadReturn err => exact lifeInv_workloadReturn h hs
  | cleanupStart => exact lifeInv_cleanupStart h hs
  | cleanupReturn => exact lifeInv_cleanupReturn h hs
  | waiterWake => exact lifeInv_waiterWake h hs
  | selectTimeout => exact lifeInv_selectTimeout h hs
  | selectDone => exact lifeInv_selectDone h hs
  | procExit => exact lifeInv_procExit h hs
  | advance d => exact lifeInv_advance h hs

theorem lifeInv_run {s s' : State} {es : List Event} (h : LifeInv s) (hr : run s es = some s') :
    LifeInv s' := by
  induction es generalizing s with
  | nil => simp [run] at hr; exact hr ▸ h
  | cons e es ih =>
    simp only [run] at hr
    cases hs : step s e with
    | none => simp [hs] at hr
    | some s1 =>
      simp [hs] at hr
      exact ih (lifeInv_step h hs) hr

/-! ## The invariant of the signal side -/

theorem execInv_start : ExecInv start := by
  constructor <;>
    simp [start, CancelCtx.background, watchedCount, watchedOf, noticeCount, fatalCount]

theorem watchedOf_snoc (l : List Signal) (g : Signal) :
    watchedOf (l ++ [g]) = watchedOf l ++ if g ∈ notifySignals then [g] else [] := by
  unfold watchedOf
  by_cases hg : g ∈ notifySignals <;> simp [List.filter_append, hg]

theorem watchedCount_ne_zero {s : State} {g : Signal} (h : firstWatched s = some g) :
    watchedCount s ≠ 0 := by
  unfold firstWatched at h
  unfold watchedCount
  cases hl : watchedOf s.received with
  | nil => simp [hl] at h
  | cons a l => simp

theorem execInv_signal {s s' : State} {g : Signal} (h : ExecInv s)
    (hs : step s (.signal g) = some s') : ExecInv s' := by
  obtain ⟨_, rfl⟩ := step_signal_iff.mp hs
  have hfw : ∀ g', s.execCtx.cause = some (.signal g') →
      firstWatched { s with received := s.received ++ [g] } = some g' := by
    intro g' hc
    have h1 := h.bySignal g' hc
    have h2 := watchedCount_ne_zero h1
    simp only [firstWatched, watchedCount, watchedOf_snoc] at h1 h2 ⊢
    cases hl : watchedOf s.received with
    | nil => simp [hl] at h2
    | cons a l => simpa [hl] using h1
  by_cases hg : g ∈ notifySignals
  · simp only [hg, ↓reduceIte, cancelExec]
    cases hd : s.execCtx.done with
    | true =>
      have hdd := h.dead hd
      simp only [↓reduceIte]
      constructor
      · intro hc; simp [hd] at hc
      · intro _
        refine ⟨hdd.1, hdd.2.1, hdd.2.2.1, Or.inl ?_⟩
        simp [watchedCount, watchedOf_snoc, hg]
      · exact hfw
      · exact h.byStop
      · exact h.notices
      · exact h.fatals
      · exact h.prompt
    | false =>
      have hl := h.live hd
      simp only [Bool.false_eq_true, ↓reduceIte]
      constructor
      · intro hc; simp [CancelCtx.cancel, hd] at hc
      · intro _
        refine ⟨by simp [hl.2.1], by simp [CancelCtx.cancel, hd], by simp, Or.inl ?_⟩
        simp [watchedCount, watchedOf_snoc, hg]
      · intro g' hc
        simp only [CancelCtx.cancel, hd, Bool.false_eq_true, ↓reduceIte, Option.some.injEq,
          Cause.signal.injEq] at hc
        subst hc
        have h0 := hl.2.2.2.2.1
        simp only [watchedCount, List.length_eq_zero] at h0
        simp [firstWatched, watchedOf_snoc, hg, h0]
      · intro hc; simp [CancelCtx.cancel, hd] at hc
      · exact h.notices
      · exact h.fatals
      · intro t ht
        simp only [Option.some.injEq] at ht
        subst ht
        exact ⟨le_refl _, fun hlt => absurd hlt (lt_irrefl _)⟩
  · simp only [hg, ↓reduceIte]
    constructor
    · intro hd
      have hl := h.live hd
      refine ⟨hl.1, hl.2.1, hl.2.2.1, hl.2.2.2.1, ?_, hl.2.2.2.2.2⟩
      have h0 := hl.2.2.2.2.1
      simp only [watchedCount] at h0 ⊢
      simpa [watchedOf_snoc, hg] using h0
    · intro hd
      have hdd := h.dead hd
      refine ⟨hdd.1, hdd.2.1, hdd.2.2.1, ?_⟩
      have h0 := hdd.2.2.2
      simp only [watchedCount] at h0 ⊢
      simpa [watchedOf_snoc, hg] using h0
    · exact hfw
    · exact h.byStop
    · exact h.notices
    · exact h.fatals
    · exact h.prompt

theorem execInv_notice {s s' : State} (h : ExecInv s)
    (hs : step s .notice = some s') : ExecInv s' := by
  obtain ⟨_, hl, hd, rfl⟩ := step_notice_iff.mp hs
  have hn := h.notices
  rw [hl] at hn
  simp only [reduceCtorEq, ↓reduceIte] at hn
  constructor
  · intro hc; simp [hd] at hc
  · exact h.dead
  · exact h.bySignal
  · exact h.byStop
  · simp only [noticeCount] at hn ⊢
    simp [hn]
  · have := h.fatals
    simp only [fatalCount] at this ⊢
    simpa [List.filter_append] using this
  · intro t ht
    exact ⟨(h.prompt t ht).1, fun _ => rfl⟩

theorem execInv_workloadReturn {s s' : State} {err : Option String} (h : ExecInv s)
    (hs : step s (.workloadReturn err) = some s') : ExecInv s' := by
  cases err with
  | some e =>
    obtain ⟨_, hm, rfl⟩ := step_fail_iff.mp hs
    have hf := h.fatals
    rw [hm] at hf
    simp only [reduceCtorEq, ↓reduceIte] at hf
    constructor
    · intro hd
      have hl := h.live hd
      exact ⟨hl.1, hl.2.1, hl.2.2.1, hl.2.2.2.1, hl.2.2.2.2.1, by simp⟩
    · intro hd
      have hdd := h.dead hd
      refine ⟨hdd.1, hdd.2.1, hdd.2.2.1, ?_⟩
      rcases hdd.2.2.2 with h1 | h1
      · exact Or.inl h1
      · rw [hm] at h1; cases h1
    · exact h.bySignal
    · intro hc; have := h.byStop hc; rw [hm] at this; cases this
    · have := h.notices
      simp only [noticeCount] at this ⊢
      simpa [List.count_append] using this
    · simp only [fatalCount] at hf ⊢
      simp [List.filter_append, hf]
    · exact h.prompt
  | none =>
    obtain ⟨_, hm, rfl⟩ := step_succeed_iff.mp hs
    have hf := h.fatals
    rw [hm] at hf
    simp only [reduceCtorEq, ↓reduceIte] at hf
    constructor
    · intro hd
      have hl := h.live hd
      exact ⟨hl.1, hl.2.1, hl.2.2.1, hl.2.2.2.1, hl.2.2.2.2.1, by simp⟩
    · intro hd
      have hdd := h.dead hd
      refine ⟨hdd.1, hdd.2.1, hdd.2.2.1, ?_⟩
      rcases hdd.2.2.2 with h1 | h1
      · exact Or.inl h1
      · rw [hm] at h1; cases h1
    · exact h.bySignal
    · intro hc; have := h.byStop hc; rw [hm] at this; cases this
    · exact h.notices
    · simpa [fatalCount] using hf
    · exact h.prompt

theorem execInv_mainReturn {s : State} {b : Branch} (h : ExecInv s) (hm : s.main = .selecting) :
    ExecInv (mainReturn s b) := by
  have hf := h.fatals
  rw [hm] at hf
  simp only [reduceCtorEq, ↓reduceIte] at hf
  simp only [mainReturn, cancelExec]
  cases hd : s.execCtx.done with
  | true =>
    have hdd := h.dead hd
    simp only [↓reduceIte]
    constructor
    · intro hc; simp [hd] at hc
    · intro _; exact ⟨hdd.1, hdd.2.1, hdd.2.2.1, Or.inr rfl⟩
    · exact h.bySignal
    · intro _; rfl
    · exact h.notices
    · simpa [fatalCount] using hf
    · exact h.prompt
  | false =>
    have hl := h.live hd
    simp only [Bool.false_eq_true, ↓reduceIte]
    constructor
    · intro hc; simp [CancelCtx.cancel, hd] at hc
    · intro _
      exact ⟨by simp [hl.2.1], by simp [CancelCtx.cancel, hd], by simp, Or.inr rfl⟩
    · intro g' hc; simp [CancelCtx.cancel, hd] at hc
    · intro _; rfl
    · exact h.notices
    · simpa [fatalCount] using hf
    · intro t ht
      simp only [Option.some.injEq] at ht
      subst ht
      exact ⟨le_refl _, fun hlt => absurd hlt (lt_irrefl _)⟩

theorem execInv_advance {s s' : State} {d : Nat} (h : ExecInv s)
    (hs : step s (.advance d) = some s') : ExecInv s' := by
  obtain ⟨hx, hr, ht, rfl⟩ := step_advance_iff.mp hs
  obtain ⟨r1, _, _, _, r5⟩ := runnable_false_iff.mp hr
  constructor
  · exact h.live
  · exact h.dead
  · exact h.bySignal
  · exact h.byStop
  · exact h.notices
  · exact h.fatals
  · intro t ht
    have h1 := h.prompt t ht
    refine ⟨Nat.le_trans h1.1 (Nat.le_add_right _ _), fun _ => ?_⟩
    cases hl : s.logger with
    | logged => rfl
    | waiting =>
      have := (h.live (r1 hl)).2.2.1
      rw [ht] at this
      cases this

theorem execInv_step {s s' : State} {e : Event} (h : ExecInv s) (hs : step s e = some s') :
    ExecInv s' := by
  cases e with
  | signal g => exact execInv_signal h hs
  | notice => exact execInv_notice h hs
  | workloadReturn err => exact execInv_workloadReturn h hs
  | cleanupStart =>
    obtain ⟨_, _, rfl⟩ := step_cleanupStart_iff.mp hs
    exact ⟨h.live, h.dead, h.bySignal, h.byStop, h.notices, h.fatals, h.prompt⟩
  | cleanupReturn =>
    obtain ⟨_, _, rfl⟩ := step_cleanupReturn_iff.mp hs
    exact ⟨h.live, h.dead, h.bySignal, h.byStop, h.notices, h.fatals, h.prompt⟩
  | waiterWake =>
    obtain ⟨_, _, _, rfl⟩ := step_waiterWake_iff.mp hs
    exact ⟨h.live, h.dead, h.bySignal, h.byStop, h.notices, h.fatals, h.prompt⟩
  | selectTimeout =>
    obtain ⟨_, hm, _, rfl⟩ := step_selectTimeout_iff.mp hs
    exact execInv_mainReturn h hm
  | selectDone =>
    obtain ⟨_, hm, _, rfl⟩ := step_selectDone_iff.mp hs
    exact execInv_mainReturn h hm
  | procExit =>
    obtain ⟨_, _, rfl⟩ := step_procExit_iff.mp hs
    exact ⟨h.live, h.dead, h.bySignal, h.byStop, h.notices, h.fatals, h.prompt⟩
  | advance d => exact execInv_advance h hs

theorem execInv_run {s s' : State} {es : List Event} (h : ExecInv s) (hr : run s es = some s') :
    ExecInv s' := by
  induction es generalizing s with
  | nil => simp [run] at hr; exact hr ▸ h
  | cons e es ih =>
    simp only [run] at hr
    cases hs : step s e with
    | none => simp [hs] at hr
    | some s1 =>
      simp [hs] at hr
      exact ih (execInv_step h hs) hr

/-! ## The cleanup side does not see the signal side -/

theorem reachable_inv {es : List Event} {s : State} (hr : run start es = some s) :
    LifeInv s ∧ ExecInv s :=
  ⟨lifeInv_run lifeInv_start hr, execInv_run execInv_start hr⟩

theorem fatal_logged_step {s s' : State} {e : Event}
    (h : ∀ x, s.workload = some (some x) → LogEntry.fatal x ∈ s.log)
    (hs : step s e = some s') :
    ∀ x, s'.workload = some (some x) → LogEntry.fatal x ∈ s'.log := by
  cases e with
  | signal g =>
    obtain ⟨_, rfl⟩ := step_signal_iff.mp hs
    split
    · unfold cancelExec; split <;> exact h
    · exact h
  | notice =>
    obtain ⟨_, _, _, rfl⟩ := step_notice_iff.mp hs
    intro x hx
    exact List.mem_append_left _ (h x hx)
  | workloadReturn err =>
    cases err with
    | some e =>
      obtain ⟨_, _, rfl⟩ := step_fail_iff.mp hs
      intro x hx
      simp only [Option.some.injEq] at hx
      subst hx
      simp
    | none =>
      obtain ⟨_, _, rfl⟩ := step_succeed_iff.mp hs
      intro x hx
      simp at hx
  | cleanupStart => obtain ⟨_, _, rfl⟩ := step_cleanupStart_iff.mp hs; exact h
  | cleanupReturn => obtain ⟨_, _, rfl⟩ := step_cleanupReturn_iff.mp hs; exact h
  | waiterWake => obtain ⟨_, _, _, rfl⟩ := step_waiterWake_iff.mp hs; exact h
  | selectTimeout =>
    obtain ⟨_, _, _, rfl⟩ := step_selectTimeout_iff.mp hs
    unfold mainReturn cancelExec; split <;> exact h
  | selectDone =>
    obtain ⟨_, _, _, rfl⟩ := step_selectDone_iff.mp hs
    unfold mainReturn cancelExec; split <;> exact h
  | procExit => obtain ⟨_, _, rfl⟩ := step_procExit_iff.mp hs; exact h
  | advance d => obtain ⟨_, _, _, rfl⟩ := step_advance_iff.mp hs; exact h

theorem fatal_logged_run {s s' : State} {es : List Event}
    (h : ∀ x, s.workload = some (some x) → LogEntry.fatal x ∈ s.log)
    (hr : run s es = some s') :
    ∀ x, s'.workload = some (some x) → LogEntry.fatal x ∈ s'.log := by
  induction es generalizing s with
  | nil => simp [run] at hr; exact hr ▸ h
  | cons e es ih =>
    simp only [run] at hr
    cases hs : step s e with
    | none => simp [hs] at hr
    | some s1 =>
      simp [hs] at hr
      exact ih (fatal_logged_step h hs) hr

/-- Cancelling a cancelled `execCtx` changes nothing. -/
theorem cancelExec_done {s : State} (w : Cause) (h : s.execCtx.done = true) :
    cancelExec s w = s := by
  simp [cancelExec, h]

theorem exec_stable_step {s s' : State} {e : Event} (hd : s.execCtx.done = true)
    (hs : step s e = some s') :
    s'.execCtx = s.execCtx ∧ s'.execCancels = s.execCancels ∧ s'.cancelledAt = s.cancelledAt := by
  cases e with
  | signal g =>
    obtain ⟨_, rfl⟩ := step_signal_iff.mp hs
    split
    · rw [cancelExec_done _ (by exact hd)]; exact ⟨rfl, rfl, rfl⟩
    · exact ⟨rfl, rfl, rfl⟩
  | notice => obtain ⟨_, _, _, rfl⟩ := step_notice_iff.mp hs; exact ⟨rfl, rfl, rfl⟩
  | workloadReturn err =>
    cases err with
    | some e => obtain ⟨_, _, rfl⟩ := step_fail_iff.mp hs; exact ⟨rfl, rfl, rfl⟩
    | none => obtain ⟨_, _, rfl⟩ := step_succeed_iff.mp hs; exact ⟨rfl, rfl, rfl⟩
  | cleanupStart => obtain ⟨_, _, rfl⟩ := step_cleanupStart_iff.mp hs; exact ⟨rfl, rfl, rfl⟩
  | cleanupReturn => obtain ⟨_, _, rfl⟩ := step_cleanupReturn_iff.mp hs; exact ⟨rfl, rfl, rfl⟩
  | waiterWake => obtain ⟨_, _, _, rfl⟩ := step_waiterWake_iff.mp hs; exact ⟨rfl, rfl, rfl⟩
  | selectTimeout =>
    obtain ⟨_, _, _, rfl⟩ := step_selectTimeout_iff.mp hs
    unfold mainReturn
    rw [cancelExec_done _ (by exact hd)]; exact ⟨rfl, rfl, rfl⟩
  | selectDone =>
    obtain ⟨_, _, _, rfl⟩ := step_selectDone_iff.mp hs
    unfold mainReturn
    rw [cancelExec_done _ (by exact hd)]; exact ⟨rfl, rfl, rfl⟩
  | procExit => obtain ⟨_, _, rfl⟩ := step_procExit_iff.mp hs; exact ⟨rfl, rfl, rfl⟩
  | advance d => obtain ⟨_, _, _, rfl⟩ := step_advance_iff.mp hs; exact ⟨rfl, rfl, rfl⟩

theorem exec_stable_run {s s' : State} {es : List Event} (hd : s.execCtx.done = true)
    (hr : run s es = some s') :
    s'.execCtx = s.execCtx ∧ s'.execCancels = s.execCancels ∧ s'.cancelledAt = s.cancelledAt := by
  induction es generalizing s with
  | nil => simp [run] at hr; subst hr; exact ⟨rfl, rfl, rfl⟩
  | cons e es ih =>
    simp only [run] at hr
    cases hs : step s e with
    | none => simp [hs] at hr
    | some s1 =>
      simp only [hs, Option.some_bind] at hr
      obtain ⟨h1, h2, h3⟩ := exec_stable_step hd hs
      obtain ⟨k1, k2, k3⟩ := ih (by rw [h1]; exact hd) hr
      exact ⟨k1.trans h1, k2.trans h2, k3.trans h3⟩

theorem mainReturn_selected (s : State) (b : Branch) :
    (mainReturn s b).selected = some (s.now, b) := by
  unfold mainReturn cancelExec; split <;> rfl

/-! ## A signal more or less -/

/-- C1: in every run in which `ExecuteContext` returned a non-nil error, the
process has gone through `Fatal`: the fatal record of that error is in the log
and the exit code is 1; the cleanup goroutine was never created (so
`observability.WaitForCleanup` was never invoked), `shutdownCtx` was never
created, and nothing can happen any more.  The run is arbitrary, so this holds
whatever signals were delivered. -/
theorem fatal_error_skips_cleanup (es : List Event) (s : State) (err : String)
    (hr : run start es = some s) (hw : s.workload = some (some err)) :
    s.main = .failed ∧ s.exitCode = some 1 ∧ LogEntry.fatal err ∈ s.log ∧ fatalCount s = 1 ∧
      s.cleanup = .notSpawned ∧ s.waiter = .notSpawned ∧ s.wg = 0 ∧
      s.shutdownCtx = none ∧ s.cleanupPhaseAt = none ∧ ∀ e, step s e = none := by
  obtain ⟨hl, he⟩ := reachable_inv hr
  have h0 : ∀ x, start.workload = some (some x) → LogEntry.fatal x ∈ start.log := by
    simp [start]
  have hlog := fatal_logged_run h0 hr err hw
  have hf := he.fatals
  cases hm : s.main with
  | executing => simp [LifeInv, hm, hw] at hl
  | selecting => simp [LifeInv, hm, Phase, hw] at hl
  | returned => simp [LifeInv, hm, Phase, hw] at hl
  | failed =>
    simp only [LifeInv, hm] at hl
    obtain ⟨_, h2, h3, h4, h5, h6, h7, _, _⟩ := hl
    rw [hm] at hf
    refine ⟨rfl, h7, hlog, by simpa using hf, h5, h6, h4, h2, h3, fun e => ?_⟩
    exact step_exited (by rw [h7]; simp)

/-- Witness of C1 on `failingRun`. -/
theorem fatal_error_skips_cleanup_witness :
    run start failingRun = some afterFailingRun ∧
      afterFailingRun.workload = some (some "db unreachable") ∧
      afterFailingRun.exitCode = some 1 ∧
      LogEntry.fatal "db unreachable" ∈ afterFailingRun.log ∧
      afterFailingRun.cleanup = .notSpawned ∧ afterFailingRun.shutdownCtx = none :=
  have h := fatal_error_skips_cleanup failingRun afterFailingRun "db unreachable"
    (by rfl) (by rfl)
  ⟨by rfl, by rfl, h.2.1, h.2.2.1, h.2.2.2.2.1, h.2.2.2.2.2.2.2.1⟩

/-- C2: in every run in which the workload returned nil, the `select` of line
63 returns exactly `min(T, W)` after the cleanup phase started, `T` being the
delay after which the wait group was joined (never, if `WaitForCleanup` does
not return) and `W` one minute.  With `t0` the start of the cleanup phase:
once the `select` has returned, at `t` through case `b`, `t - t0` is
`minDelay (joinDelay s) Minute`; case `cleanupFinished` means the join
happened at `t`, case `timedOut` means `t = t0 + Minute`, and a join before
the minute is over forces case `cleanupFinished`.  While the `select` is
still pending, it cannot return before the join or the deadline; and from
the moment of the join, or of the deadline, the clock cannot advance until
main has taken the case that is ready, which it can do at that very time. -/
theorem select_returns_at_min (es : List Event) (s : State)
    (hr : run start es = some s) (hw : s.workload = some none) :
    ∃ t0, s.cleanupPhaseAt = some t0 ∧ t0 ≤ s.now ∧ s.now ≤ t0 + Minute ∧
      (∀ T, s.joinedAt = some T → T = s.now) ∧
      (∀ t b, s.selected = some (t, b) →
        t0 ≤ t ∧ selectDelay s = some (minDelay (joinDelay s) Minute) ∧
        (b = .cleanupFinished → s.joinedAt = some t) ∧
        (b = .timedOut → t = t0 + Minute) ∧
        (∀ T, joinDelay s = some T → T < Minute → b = .cleanupFinished)) ∧
      (s.selected = none →
        s.main = .selecting ∧
        (s.joinedAt = none → s.now < t0 + Minute →
          step s .selectTimeout = none ∧ step s .selectDone = none) ∧
        (s.now = t0 + Minute →
          (∀ d, step s (.advance d) = none) ∧
          ∃ s', step s .selectTimeout = some s' ∧
            s'.selected = some (t0 + Minute, .timedOut)) ∧
        (s.joinedAt = some s.now →
          (∀ d, step s (.advance d) = none) ∧
          ∃ s', (run s [.selectDone] = some s' ∨ run s [.waiterWake, .selectDone] = some s') ∧
            s'.selected = some (s.now, .cleanupFinished))) := by
  obtain ⟨hl, -⟩ := reachable_inv hr
  cases hm : s.main with
  | executing => simp [LifeInv, hm, hw] at hl
  | failed => simp [LifeInv, hm, hw] at hl
  | selecting =>
    simp only [LifeInv, hm, Phase] at hl
    obtain ⟨⟨_, h2, h3, h4, h5, h6⟩, hx, hsel⟩ := hl
    obtain ⟨t0, ht0⟩ := Option.ne_none_iff_exists'.mp h2
    obtain ⟨hctx, hlo, hhi⟩ := h3 t0 ht0
    have hsd : shutdownDone s = decide (t0 + Minute ≤ s.now) := by
      rw [shutdownDone_eq hctx]; simp
    have hjoin : ∀ T, s.joinedAt = some T → T = s.now := by
      intro T hj
      have hf : s.cleanup = .finished := by
        by_contra hnf; have := (h5 hnf).2.1; rw [hj] at this; cases this
      have := (h6 hf).2.1
      rw [hj] at this
      simpa using this
    refine ⟨t0, ht0, hlo, hhi, hjoin, ?_, fun _ => ⟨rfl, ?_, ?_, ?_⟩⟩
    · intro t b hs; rw [hsel] at hs; cases hs
    · intro hj hlt
      have hnf : s.cleanup ≠ .finished := by
        intro hf; have := (h6 hf).2.1; rw [hj] at this; cases this
      constructor
      · cases hst : step s .selectTimeout with
        | none => rfl
        | some s' =>
          obtain ⟨_, _, hd, _⟩ := step_selectTimeout_iff.mp hst
          rw [hsd] at hd
          simp only [decide_eq_true_eq] at hd
          omega
      · cases hst : step s .selectDone with
        | none => rfl
        | some s' =>
          obtain ⟨_, _, hd, _⟩ := step_selectDone_iff.mp hst
          have := (h5 hnf).2.2
          rw [hd] at this
          cases this
    · intro hnow
      have hd : shutdownDone s = true := by
        rw [hsd]; simp only [decide_eq_true_eq]; omega
      constructor
      · intro d
        cases hst : step s (.advance d) with
        | none => rfl
        | some s' =>
          obtain ⟨_, hrn, _, _⟩ := step_advance_iff.mp hst
          have := ((runnable_false_iff.mp hrn).2.2.2.1 hm).1
          rw [hd] at this
          cases this
      · refine ⟨_, step_selectTimeout_iff.mpr ⟨hx, hm, hd, rfl⟩, ?_⟩
        rw [mainReturn_selected, hnow]
    · intro hj
      have hf : s.cleanup = .finished := by
        by_contra hnf; have := (h5 hnf).2.1; rw [hj] at this; cases this
      obtain ⟨hwg, hjn, hwt⟩ := h6 hf
      refine ⟨?_, ?_⟩
      · intro d
        cases hst : step s (.advance d) with
        | none => rfl
        | some s' =>
          obtain ⟨_, hrn, _, _⟩ := step_advance_iff.mp hst
          obtain ⟨_, _, r3, r4, _⟩ := runnable_false_iff.mp hrn
          cases hw' : s.waiter with
          | notSpawned => exact absurd hw' hwt
          | blocked => exact absurd hwg (r3 hw')
          | closed => exact absurd hw' (r4 hm).2
      · cases hw' : s.waiter with
        | notSpawned => exact absurd hw' hwt
        | blocked =>
          refine ⟨mainReturn { s with waiter := .closed } .cleanupFinished, Or.inr ?_, ?_⟩
          · have h1 : step s .waiterWake = some { s with waiter := .closed } :=
              step_waiterWake_iff.mpr ⟨hx, hw', hwg, rfl⟩
            have h2 : step { s with waiter := .closed } .selectDone =
                some (mainReturn { s with waiter := .closed } .cleanupFinished) :=
              step_selectDone_iff.mpr ⟨hx, hm, rfl, rfl⟩
            simp [run, h1, h2]
          · rw [mainReturn_selected]
        | closed =>
          refine ⟨mainReturn s .cleanupFinished, Or.inl ?_, ?_⟩
          · have h1 : step s .selectDone = some (mainReturn s .cleanupFinished) :=
              step_selectDone_iff.mpr ⟨hx, hm, hw', rfl⟩
            simp [run, h1]
          · rw [mainReturn_selected]
  | returned =>
    simp only [LifeInv, hm, Phase] at hl
    obtain ⟨⟨_, h2, h3, h4, h5, h6⟩, hx, hsel, hsel'⟩ := hl
    obtain ⟨t0, ht0⟩ := Option.ne_none_iff_exists'.mp h2
    obtain ⟨hctx, hlo, hhi⟩ := h3 t0 ht0
    have hjoin : ∀ T, s.joinedAt = some T → T = s.now := by
      intro T hj
      have hf : s.cleanup = .finished := by
        by_contra hnf; have := (h5 hnf).2.1; rw [hj] at this; cases this
      have := (h6 hf).2.1
      rw [hj] at this
      simpa using this
    refine ⟨t0, ht0, hlo, hhi, hjoin, ?_, fun hn => absurd hn hsel⟩
    intro t b hs
    obtain ⟨rfl, hto, hcf⟩ := hsel' t b hs
    have hto' : b = .timedOut → s.now = t0 + Minute := fun hb => hto hb t0 ht0
    by_cases hf : s.cleanup = .finished
    · obtain ⟨_, hjn, _⟩ := h6 hf
      refine ⟨hlo, ?_, fun _ => hjn, hto', ?_⟩
      · simp only [selectDelay, joinDelay, hs, hjn, ht0, Option.map_some', Option.getD_some,
          minDelay, Option.some.injEq]
        omega
      · intro T hT hlt
        simp only [joinDelay, hjn, ht0, Option.map_some', Option.getD_some,
          Option.some.injEq] at hT
        cases b with
        | cleanupFinished => rfl
        | timedOut => have := hto' rfl; omega
    · obtain ⟨_, hjn, _⟩ := h5 hf
      have hb : b = .timedOut := by
        cases b with
        | timedOut => rfl
        | cleanupFinished => exact absurd (hcf rfl) hf
      refine ⟨hlo, ?_, (fun hb' => absurd hb' (by rw [hb]; simp)), hto', ?_⟩
      · have := hto' hb
        simp only [selectDelay, joinDelay, hs, hjn, ht0, Option.map_some', Option.getD_some,
          Option.map_none', minDelay, Option.some.injEq]
        omega
      · intro T hT
        simp [joinDelay, hjn] at hT

/-- Witness of C2: a cleanup of three seconds ends the `select` after three
seconds, and a cleanup that never finishes ends it after one minute. -/
theorem select_returns_at_min_witness :
    (run start promptCleanupRun = some afterPromptCleanupRun ∧
      afterPromptCleanupRun.workload = some none ∧
      joinDelay afterPromptCleanupRun = some (3 * Second) ∧
      selectDelay afterPromptCleanupRun =
        some (minDelay (joinDelay afterPromptCleanupRun) Minute) ∧
      selectDelay afterPromptCleanupRun = some (3 * Second)) ∧
    (run start stuckCleanupRun = some afterStuckCleanupRun ∧
      afterStuckCleanupRun.workload = some none ∧
      joinDelay afterStuckCleanupRun = none ∧
      selectDelay afterStuckCleanupRun =
        some (minDelay (joinDelay afterStuckCleanupRun) Minute) ∧
      selectDelay afterStuckCleanupRun = some Minute) := by
  obtain ⟨_, _, _, _, _, h1, _⟩ :=
    select_returns_at_min promptCleanupRun afterPromptCleanupRun (by rfl) (by rfl)
  obtain ⟨_, _, _, _, _, h2, _⟩ :=
    select_returns_at_min stuckCleanupRun afterStuckCleanupRun (by rfl) (by rfl)
  exact ⟨⟨by rfl, by rfl, by rfl, (h1 (4 * Second) .cleanupFinished (by rfl)).2.1, by rfl⟩,
    ⟨by rfl, by rfl, by rfl, (h2 (5 * Second + Minute) .timedOut (by rfl)).2.1, by rfl⟩⟩

/-- C3: the exit code is decided by what the workload returned, and by nothing
else.  In every run that has exited with code `c`: `c = 0` exactly when
`ExecuteContext` returned nil, through whichever case the `select` was left
(cleanup finished, or deadline reached), and `c = 1`, so not zero, exactly
when it returned an error.  And once main has returned, the exit with code 0
is the step that is due. -/
theorem exit_code_by_workload (es : List Event) (s : State)
    (hr : run start es = some s) :
    (∀ c, s.exitCode = some c →
      (c = 0 ↔ s.workload = some none) ∧
      (c ≠ 0 ↔ ∃ e, s.workload = some (some e)) ∧
      (c = 0 ∨ c = 1) ∧
      (∀ t b, s.selected = some (t, b) → c = 0) ∧
      (c = 0 → ∃ t b, s.selected = some (t, b))) ∧
    (s.main = .returned → s.exitCode = none →
      step s .procExit = some { s with exitCode := some 0 }) := by
  obtain ⟨hl, -⟩ := reachable_inv hr
  refine ⟨fun c hc => ?_, fun hm hx => step_procExit_iff.mpr ⟨hx, hm, rfl⟩⟩
  cases hm : s.main with
  | executing => simp [LifeInv, hm, hc] at hl
  | selecting => simp [LifeInv, hm, Phase, hc] at hl
  | failed =>
    simp only [LifeInv, hm] at hl
    obtain ⟨⟨e, he⟩, _, _, _, _, _, h7, _, h9⟩ := hl
    rw [hc] at h7
    simp only [Option.some.injEq] at h7
    subst h7
    simp [he, h9]
  | returned =>
    simp only [LifeInv, hm, Phase] at hl
    obtain ⟨⟨h1, _⟩, h2, h3, _⟩ := hl
    have hc0 : c = 0 := by
      rcases h2 with h2 | h2
      · rw [hc] at h2; cases h2
      · rw [hc] at h2; simpa using h2
    subst hc0
    obtain ⟨⟨t, b⟩, hsel⟩ := Option.ne_none_iff_exists'.mp h3
    simp [h1, hsel]

/-- Witness of C3: a run that timed out, a run whose cleanup finished and a
run whose workload failed. -/
theorem exit_code_by_workload_witness :
    (run start stuckCleanupRun = some afterStuckCleanupRun ∧
      afterStuckCleanupRun.exitCode = some 0 ∧
      ((0 : Nat) = 0 ↔ afterStuckCleanupRun.workload = some none)) ∧
    (run start promptCleanupRun = some afterPromptCleanupRun ∧
      afterPromptCleanupRun.exitCode = some 0 ∧
      ((0 : Nat) = 0 ↔ afterPromptCleanupRun.workload = some none)) ∧
    (run start failingRun = some afterFailingRun ∧
      afterFailingRun.exitCode = some 1 ∧
      ((1 : Nat) ≠ 0 ↔ ∃ e, afterFailingRun.workload = some (some e))) :=
  ⟨⟨by rfl, by rfl,
      ((exit_code_by_workload stuckCleanupRun afterStuckCleanupRun (by rfl)).1 0 (by rfl)).1⟩,
   ⟨by rfl, by rfl,
      ((exit_code_by_workload promptCleanupRun afterPromptCleanupRun (by rfl)).1 0 (by rfl)).1⟩,
   ⟨by rfl, by rfl,
      ((exit_code_by_workload failingRun afterFailingRun (by rfl)).1 1 (by rfl)).2.1⟩⟩

/-- C4, as stated, fails: in `lostNoticeRun` two termination signals are
delivered while the workload is running, `execCtx` is cancelled once, and the
process exits through `Fatal` with no shutdown notice in the log. -/
theorem notice_lost_when_process_exits_first :
    run start lostNoticeRun = some afterLostNoticeRun ∧
      watchedCount afterLostNoticeRun = 2 ∧
      afterLostNoticeRun.execCancels = 1 ∧
      afterLostNoticeRun.exitCode = some 1 ∧
      noticeCount afterLostNoticeRun = 0 :=
  ⟨by rfl, by rfl, by rfl, by rfl, by rfl⟩

/-- C4, amended: in every run in which `N > 0` termination signals have been
delivered, `execCtx` has been cancelled exactly once, whatever `N`; the
shutdown notice has been logged at most once, and exactly once from the
moment the logging goroutine has run.  While the process is alive and the
goroutine has not run, its step is enabled; and the notice is in the log in
every state in which the clock has moved since the cancellation. -/
theorem signals_cancel_once (es : List Event) (s : State)
    (hr : run start es = some s) (hn : 0 < watchedCount s) :
    s.execCtx.done = true ∧ s.execCancels = 1 ∧
      noticeCount s ≤ 1 ∧ (noticeCount s = 1 ↔ s.logger = .logged) ∧
      (s.logger = .waiting → s.exitCode = none →
        step s .notice =
          some { s with logger := .logged, log := s.log ++ [.info shutdownNotice] }) ∧
      (∀ t, s.cancelledAt = some t → t < s.now → noticeCount s = 1) := by
  obtain ⟨-, he⟩ := reachable_inv hr
  have hd : s.execCtx.done = true := by
    cases hdd : s.execCtx.done with
    | true => rfl
    | false => have := (he.live hdd).2.2.2.2.1; omega
  have hnc := he.notices
  refine ⟨hd, (he.dead hd).1, ?_, ?_, ?_, ?_⟩
  · rw [hnc]; split <;> simp
  · rw [hnc]; split <;> simp [*]
  · intro hl hx
    exact step_notice_iff.mpr ⟨hx, hl, hd, rfl⟩
  · intro t ht hlt
    rw [hnc, if_pos ((he.prompt t ht).2 hlt)]

/-- Witness of C4: three termination signals, one cancellation, one notice. -/
theorem signals_cancel_once_witness :
    run start threeSignalsRun = some afterThreeSignalsRun ∧
      watchedCount afterThreeSignalsRun = 3 ∧
      afterThreeSignalsRun.execCancels = 1 ∧
      noticeCount afterThreeSignalsRun = 1 :=
  have h := signals_cancel_once threeSignalsRun afterThreeSignalsRun (by rfl) (by decide)
  ⟨by rfl, by rfl, h.2.1, h.2.2.2.2.2 0 (by rfl) (by decide)⟩

/-- C5, as stated, fails: in `quietRun` no signal is delivered, and yet
`execCtx` is cancelled once main has returned, while the process is still
alive: the deferred `execCancel` of line 29 has run. -/
theorem cancelled_without_signal :
    run start quietRun = some afterQuietRun ∧
      afterQuietRun.received = [] ∧
      afterQuietRun.exitCode = none ∧
      afterQuietRun.execCtx.done = true ∧
      afterQuietRun.execCtx.cause = some .stop :=
  ⟨by rfl, by rfl, by rfl, by rfl, by rfl⟩

/-- C5, amended: in every reachable state, `execCtx` is cancelled if a
termination signal has been delivered; if none has been, it is cancelled
exactly when main has returned (the deferred `execCancel` of line 29), so not
while the workload runs nor during the cleanup phase.  A cause naming a signal
names the first termination signal delivered, and the cause `stop` appears
only once main has returned. -/
theorem cancelled_by_signal_or_return (es : List Event) (s : State)
    (hr : run start es = some s) :
    (0 < watchedCount s → s.execCtx.done = true) ∧
    (watchedCount s = 0 → (s.execCtx.done = true ↔ s.main = .returned)) ∧
    (∀ g, s.execCtx.cause = some (.signal g) → firstWatched s = some g) ∧
    (s.execCtx.cause = some .stop → s.main = .returned) := by
  obtain ⟨-, he⟩ := reachable_inv hr
  refine ⟨fun hn => ?_, fun h0 => ⟨fun hd => ?_, fun hm => ?_⟩, he.bySignal, he.byStop⟩
  · cases hdd : s.execCtx.done with
    | true => rfl
    | false => have := (he.live hdd).2.2.2.2.1; omega
  · rcases (he.dead hd).2.2.2 with h | h
    · omega
    · exact h
  · cases hdd : s.execCtx.done with
    | true => rfl
    | false => exact absurd hm (he.live hdd).2.2.2.2.2

/-- Witness of C5: during the cleanup phase of a run without signals,
`execCtx` is live. -/
theorem cancelled_by_signal_or_return_witness :
    run start cleaningRun = some afterCleaningRun ∧
      watchedCount afterCleaningRun = 0 ∧
      (afterCleaningRun.execCtx.done = true ↔ afterCleaningRun.main = .returned) :=
  ⟨by rfl, by rfl,
    (cancelled_by_signal_or_return cleaningRun afterCleaningRun (by rfl)).2.1 (by rfl)⟩

/-- C6: the signals that start the shutdown are exactly SIGINT, SIGTERM and
SIGHUP.  In every reachable state in which the workload is running and
`execCtx` is still live, any signal `g` can be delivered, and the delivery
cancels `execCtx` if and only if `g` is one of the three; when it does, `g` is
recorded as the cause. -/
theorem watched_signals_cancel (es : List Event) (s : State) (g : Signal)
    (hr : run start es = some s) (hm : s.main = .executing)
    (hd : s.execCtx.done = false) :
    ∃ s', step s (.signal g) = some s' ∧
      (s'.execCtx.done = true ↔ g = SIGINT ∨ g = SIGTERM ∨ g = SIGHUP) ∧
      (s'.execCtx.done = true → s'.execCtx.cause = some (.signal g)) ∧
      s'.main = .executing := by
  obtain ⟨hl, -⟩ := reachable_inv hr
  simp only [LifeInv, hm] at hl
  have hx : s.exitCode = none := hl.2.2.2.2.2.2.1
  refine ⟨_, step_signal_iff.mpr ⟨hx, rfl⟩, ?_⟩
  by_cases hg : g ∈ notifySignals
  · have hg' : g = SIGINT ∨ g = SIGTERM ∨ g = SIGHUP := by
      simp only [notifySignals, List.mem_cons, List.mem_singleton, List.not_mem_nil,
        or_false] at hg
      tauto
    simp [hg, cancelExec, hd, CancelCtx.cancel, hg', hm]
  · have hg' : ¬ (g = SIGINT ∨ g = SIGTERM ∨ g = SIGHUP) := by
      intro h
      apply hg
      simp only [notifySignals, List.mem_cons, List.mem_singleton, List.not_mem_nil,
        or_false]
      tauto
    simp [hg, hd, hg', hm]

/-- Witness of C6: SIGHUP, delivered to the process as it starts. -/
theorem watched_signals_cancel_witness :
    run start [] = some start ∧ start.main = .executing ∧ start.execCtx.done = false ∧
      ∃ s', step start (.signal SIGHUP) = some s' ∧
        (s'.execCtx.done = true ↔ SIGHUP = SIGINT ∨ SIGHUP = SIGTERM ∨ SIGHUP = SIGHUP) ∧
        (s'.execCtx.done = true → s'.execCtx.cause = some (.signal SIGHUP)) ∧
        s'.main = .executing :=
  ⟨by rfl, by rfl, by rfl, watched_signals_cancel [] start SIGHUP (by rfl) (by rfl) (by rfl)⟩

/-- C7: in every reachable state, the cleanup goroutine exists (let alone has
entered or left `observability.WaitForCleanup`) only if `ExecuteContext` has
returned, with nil; and as long as main is inside `ExecuteContext` the
cleanup goroutine does not exist, the wait group is empty and `shutdownCtx`
has not been created. -/
theorem cleanup_only_after_workload (es : List Event) (s : State)
    (hr : run start es = some s) :
    (s.cleanup ≠ .notSpawned → s.workload = some none ∧ s.main ≠ .executing) ∧
    (s.main = .executing →
      s.workload = none ∧ s.cleanup = .notSpawned ∧ s.wg = 0 ∧ s.shutdownCtx = none) := by
  obtain ⟨hl, -⟩ := reachable_inv hr
  cases hm : s.main with
  | executing =>
    simp only [LifeInv, hm] at hl
    obtain ⟨h1, h2, _, h4, h5, _⟩ := hl
    exact ⟨fun hc => absurd h5 hc, fun _ => ⟨h1, h5, h4, h2⟩⟩
  | failed =>
    simp only [LifeInv, hm] at hl
    obtain ⟨_, _, _, _, h5, _⟩ := hl
    exact ⟨fun hc => absurd h5 hc, fun h => by cases h⟩
  | selecting =>
    simp only [LifeInv, hm, Phase] at hl
    exact ⟨fun _ => ⟨hl.1.1, by simp⟩, fun h => by cases h⟩
  | returned =>
    simp only [LifeInv, hm, Phase] at hl
    exact ⟨fun _ => ⟨hl.1.1, by simp⟩, fun h => by cases h⟩

/-- Witness of C7: the state in which `WaitForCleanup` is running. -/
theorem cleanup_only_after_workload_witness :
    run start cleaningRun = some afterCleaningRun ∧
      afterCleaningRun.cleanup = .waiting ∧
      afterCleaningRun.workload = some none ∧ afterCleaningRun.main ≠ .executing :=
  ⟨by rfl, by rfl,
    (cleanup_only_after_workload cleaningRun afterCleaningRun (by rfl)).1 (by decide)⟩

/-- C8, as stated, fails: `noticedFailureRun` logs the shutdown notice and
then the fatal record. -/
theorem both_lines_logged :
    run start noticedFailureRun = some afterNoticedFailureRun ∧
      afterNoticedFailureRun.log =
        [.info shutdownNotice, .fatal "context canceled"] ∧
      noticeCount afterNoticedFailureRun = 1 ∧
      fatalCount afterNoticedFailureRun = 1 :=
  ⟨by rfl, by rfl, by rfl, by rfl⟩

/-- C8, amended: in every run each of the two lines is logged at most once;
both are logged only if a termination signal was delivered and the workload
returned an error; a run without termination signals logs at most one of
them. -/
theorem each_line_at_most_once (es : List Event) (s : State)
    (hr : run start es = some s) :
    noticeCount s ≤ 1 ∧ fatalCount s ≤ 1 ∧
    (noticeCount s = 1 → fatalCount s = 1 →
      0 < watchedCount s ∧ ∃ e, s.workload = some (some e)) ∧
    (watchedCount s = 0 → noticeCount s + fatalCount s ≤ 1) := by
  obtain ⟨hl, he⟩ := reachable_inv hr
  have hnc := he.notices
  have hfc := he.fatals
  have hn1 : noticeCount s ≤ 1 := by rw [hnc]; split <;> simp
  have hf1 : fatalCount s ≤ 1 := by rw [hfc]; split <;> simp
  have key : noticeCount s = 1 → fatalCount s = 1 →
      0 < watchedCount s ∧ ∃ e, s.workload = some (some e) := by
    intro h1 h2
    have hlog : s.logger = .logged := by
      by_contra hne; rw [hnc, if_neg hne] at h1; cases h1
    have hm : s.main = .failed := by
      by_contra hne; rw [hfc, if_neg hne] at h2; cases h2
    have hd : s.execCtx.done = true := by
      cases hdd : s.execCtx.done with
      | true => rfl
      | false => have := (he.live hdd).2.2.2.1; rw [hlog] at this; cases this
    constructor
    · rcases (he.dead hd).2.2.2 with h | h
      · exact h
      · rw [hm] at h; cases h
    · simp only [LifeInv, hm] at hl
      exact hl.1
  refine ⟨hn1, hf1, key, fun h0 => ?_⟩
  by_contra hgt
  have h1 : noticeCount s = 1 := by omega
  have h2 : fatalCount s = 1 := by omega
  have := (key h1 h2).1
  omega

/-- Witness of C8: the run `noticedFailureRun` logs both lines, each once. -/
theorem each_line_at_most_once_witness :
    run start noticedFailureRun = some afterNoticedFailureRun ∧
      noticeCount afterNoticedFailureRun ≤ 1 ∧ fatalCount afterNoticedFailureRun ≤ 1 ∧
      0 < watchedCount afterNoticedFailureRun :=
  have h := each_line_at_most_once noticedFailureRun afterNoticedFailureRun (by rfl)
  ⟨by rfl, h.1, h.2.1, (h.2.2.1 (by rfl) (by rfl)).1⟩

/-- C9: cancellation of `execCtx` is monotonic and idempotent.  From any
state in which `execCtx` is cancelled, whatever events follow (further
signals, the workload returning, main returning and running the deferred
`execCancel`, and all the others), `execCtx` is the same afterwards: still
cancelled, with the same cause; and no further cancellation is counted. -/
theorem cancellation_is_stable (s s' : State) (es : List Event)
    (hd : s.execCtx.done = true) (hr : run s es = some s') :
    s'.execCtx.done = true ∧ s'.execCtx = s.execCtx ∧ s'.execCancels = s.execCancels ∧
      s'.cancelledAt = s.cancelledAt := by
  obtain ⟨h1, h2, h3⟩ := exec_stable_run hd hr
  exact ⟨by rw [h1]; exact hd, h1, h2, h3⟩

/-- Witness of C9: after SIGTERM, a SIGHUP, the workload returning and the
deferred `execCancel` leave the cause at SIGTERM. -/
theorem cancellation_is_stable_witness :
    run start [.signal SIGTERM] = some afterSigterm ∧
      afterSigterm.execCtx.done = true ∧
      run afterSigterm laterEvents = some afterLaterEvents ∧
      afterLaterEvents.execCtx = { done := true, cause := some (.signal SIGTERM) } ∧
      afterLaterEvents.execCancels = 1 :=
  have h := cancellation_is_stable afterSigterm afterLaterEvents laterEvents (by rfl) (by rfl)
  ⟨by rfl, by rfl, by rfl, h.2.1, h.2.2.1⟩

end Auth
